import Mathlib

/-!
Verification of the Redux todo-list state container in `src/app/index.jsx`.

The embedding models the two Redux slices (`todosSlice`, `uiSlice`), the
combined store dispatch, and the orchestration layer around `addNewTodo`
(trim check, banner show, and the 2000 ms `setTimeout` that hides the
"added" banner).  Task ids are `Date.now().toString()`, modelled as
`Nat.repr now` where `now : Nat` is the current clock value in
milliseconds; `createdAt` is `new Date().toISOString()`, modelled by the
numeric instant `now` (no operation ever inspects or compares it, only
its immutability matters).
-/

namespace StateWithRedux

/-- A task record, as pushed by the `addTodo` reducer:
`{ id: Date.now().toString(), title, done: false, createdAt }`. -/
structure Todo where
  id : String
  title : String
  done : Bool
  createdAt : Nat
  deriving DecidableEq

/-- Default used with `List.getD` when stating position-wise properties. -/
def defaultTodo : Todo := { id := "", title := "", done := false, createdAt := 0 }

/-- State of `todosSlice`: `initialState: { items: [] }`. -/
structure TodosState where
  items : List Todo
  deriving DecidableEq

/-- Reducer `addTodo`: `state.items.push({ id: Date.now().toString(), title: action.payload, done: false, createdAt: ... })`. -/
def addTodo (now : Nat) (payload : String) (s : TodosState) : TodosState :=
  { s with items := s.items ++
      [{ id := Nat.repr now, title := payload, done := false, createdAt := now }] }

/-- `state.items.find((t) => t.id === action.payload)` followed by an
in-place `todo.done = !todo.done`: flips the `done` flag of the first
task whose id matches, leaving everything else in place. -/
def toggleItems (payload : String) : List Todo → List Todo
  | [] => []
  | t :: ts =>
    if t.id = payload then { t with done := !t.done } :: ts
    else t :: toggleItems payload ts

/-- Reducer `toggleTodo`. -/
def toggleTodo (payload : String) (s : TodosState) : TodosState :=
  { s with items := toggleItems payload s.items }

/-- Reducer `removeTodo`: `state.items = state.items.filter((t) => t.id !== action.payload)`. -/
def removeTodo (payload : String) (s : TodosState) : TodosState :=
  { s with items := s.items.filter (fun t => t.id ≠ payload) }

/-- Reducer `clearTodos`: `state.items = []`. -/
def clearTodos (s : TodosState) : TodosState :=
  { s with items := [] }

/-- State of `uiSlice`: `{ darkMode: false, showBanner: true, showAddBanner: false }`. -/
structure UiState where
  darkMode : Bool
  showBanner : Bool
  showAddBanner : Bool
  deriving DecidableEq

/-- Reducer `toggleDarkMode`: `state.darkMode = !state.darkMode`. -/
def toggleDarkMode (s : UiState) : UiState :=
  { s with darkMode := !s.darkMode }

/-- Reducer `dismissBanner`: `state.showBanner = false`. -/
def dismissBanner (s : UiState) : UiState :=
  { s with showBanner := false }

/-- Reducer `showAddBanner`: `state.showAddBanner = true`. -/
def showAddBanner (s : UiState) : UiState :=
  { s with showAddBanner := true }

/-- Reducer `hideAddBanner`: `state.showAddBanner = false`. -/
def hideAddBanner (s : UiState) : UiState :=
  { s with showAddBanner := false }

/-- Combined store state: `configureStore({ reducer: { todos, ui } })`. -/
structure AppState where
  todos : TodosState
  ui : UiState
  deriving DecidableEq

/-- The eight dispatchable actions of the two slices. -/
inductive Action where
  | addTodo (payload : String)
  | toggleTodo (payload : String)
  | removeTodo (payload : String)
  | clearTodos
  | toggleDarkMode
  | dismissBanner
  | showAddBanner
  | hideAddBanner
  deriving DecidableEq

/-- Store dispatch: each slice reducer handles its own action types and
ignores the others, exactly as `createSlice` reducers do.  `now` is the
clock value (`Date.now()`) at dispatch time; only `addTodo` reads it. -/
def dispatch (now : Nat) (a : Action) (s : AppState) : AppState :=
  match a with
  | Action.addTodo p => { s with todos := addTodo now p s.todos }
  | Action.toggleTodo p => { s with todos := toggleTodo p s.todos }
  | Action.removeTodo p => { s with todos := removeTodo p s.todos }
  | Action.clearTodos => { s with todos := clearTodos s.todos }
  | Action.toggleDarkMode => { s with ui := toggleDarkMode s.ui }
  | Action.dismissBanner => { s with ui := dismissBanner s.ui }
  | Action.showAddBanner => { s with ui := showAddBanner s.ui }
  | Action.hideAddBanner => { s with ui := hideAddBanner s.ui }

/-- The store's initial state. -/
def initialState : AppState :=
  { todos := { items := [] }, ui := { darkMode := false, showBanner := true, showAddBanner := false } }

/-- Store state plus the multiset of scheduled `hideAddBanner` timeouts,
recorded by the absolute time at which each will fire. -/
structure SysState where
  app : AppState
  pending : List Nat
  deriving DecidableEq

/-- JS `String.prototype.trim`: strips leading and trailing whitespace.
(Embedded directly over the character list so it is kernel-computable.) -/
def trimString (s : String) : String :=
  (((s.data.dropWhile Char.isWhitespace).reverse.dropWhile Char.isWhitespace).reverse).asString

/-- The `addNewTodo` handler: `if (!title.trim()) return;` (an empty JS
string is falsy) then `dispatch(addTodo(title.trim()))`,
`dispatch(showAddBanner())`, and
`setTimeout(() => dispatch(hideAddBanner()), 2000)`. -/
def addNewTodo (now : Nat) (title : String) (sys : SysState) : SysState :=
  if trimString title = "" then sys
  else
    { app := dispatch now Action.showAddBanner
        (dispatch now (Action.addTodo (trimString title)) sys.app),
      pending := sys.pending ++ [now + 2000] }

/-- A scheduled timeout fires: it dispatches `hideAddBanner` and leaves
the pending set, no matter what happened since it was scheduled. -/
def fireTimer (t : Nat) (sys : SysState) : SysState :=
  if t ∈ sys.pending then
    { app := dispatch t Action.hideAddBanner sys.app, pending := sys.pending.erase t }
  else sys

/-- The discrete events the running app can process: the user-level
operations (each routed through its handler) and a timer firing. -/
inductive SysEvent where
  | input (title : String)
  | toggle (id : String)
  | remove (id : String)
  | clear
  | toggleDark
  | dismiss
  | fire (t : Nat)
  deriving DecidableEq

/-- One step of the running app at clock value `now`. -/
def sysStep (now : Nat) (e : SysEvent) (sys : SysState) : SysState :=
  match e with
  | SysEvent.input title => addNewTodo now title sys
  | SysEvent.toggle i => { sys with app := dispatch now (Action.toggleTodo i) sys.app }
  | SysEvent.remove i => { sys with app := dispatch now (Action.removeTodo i) sys.app }
  | SysEvent.clear => { sys with app := dispatch now Action.clearTodos sys.app }
  | SysEvent.toggleDark => { sys with app := dispatch now Action.toggleDarkMode sys.app }
  | SysEvent.dismiss => { sys with app := dispatch now Action.dismissBanner sys.app }
  | SysEvent.fire t => fireTimer t sys

/-- Run a timed trace of events. -/
def sysRun : List (Nat × SysEvent) → SysState → SysState
  | [], sys => sys
  | (now, e) :: rest, sys => sysRun rest (sysStep now e sys)

/-- The app's state at startup: the store's initial state, no timer pending. -/
def initialSys : SysState :=
  { app := initialState, pending := [] }

/-- The clock values at which add operations occur in a trace. -/
def addTimes : List (Nat × SysEvent) → List Nat
  | [] => []
  | (now, SysEvent.input _) :: rest => now :: addTimes rest
  | _ :: rest => addTimes rest

/-- The reachable task collection obtained by adding "a" and "b" during
the same millisecond (`Date.now() = 5` both times): both tasks get id "5". -/
def dupTodos : TodosState :=
  (sysRun [(5, SysEvent.input "a"), (5, SysEvent.input "b")] initialSys).app.todos

/-- A small concrete store state used to instantiate universally
quantified theorems. -/
def sampleApp : AppState :=
  { todos := { items := [{ id := "1", title := "t", done := false, createdAt := 1 }] },
    ui := { darkMode := false, showBanner := true, showAddBanner := false } }

/-! ### Injectivity of `Nat.repr` (ids are stringified clock values) -/

theorem toDigitsCore_acc (b : Nat) :
    ∀ (fuel n : Nat) (ds : List Char),
      Nat.toDigitsCore b fuel n ds = Nat.toDigitsCore b fuel n [] ++ ds := by
  intro fuel
  induction fuel with
  | zero => intro n ds; simp [Nat.toDigitsCore]
  | succ f ih =>
    intro n ds
    simp only [Nat.toDigitsCore]
    by_cases h : n / b = 0
    · simp [h]
    · simp only [h, if_false]
      rw [ih (n / b) (Nat.digitChar (n % b) :: ds), ih (n / b) [Nat.digitChar (n % b)]]
      simp

theorem toDigitsCore_eq_digits :
    ∀ (fuel n : Nat), 0 < n → n ≤ fuel →
      Nat.toDigitsCore 10 fuel n [] = ((Nat.digits 10 n).map Nat.digitChar).reverse := by
  intro fuel
  induction fuel with
  | zero => intro n h0 hle; omega
  | succ f ih =>
    intro n h0 hle
    simp only [Nat.toDigitsCore]
    by_cases h : n / 10 = 0
    · rw [Nat.digits_def' (by norm_num : (1:Nat) < 10) h0, h]
      simp
    · simp only [h, if_false]
      rw [toDigitsCore_acc]
      rw [ih (n / 10) (Nat.pos_of_ne_zero h) (by omega)]
      rw [Nat.digits_def' (by norm_num : (1:Nat) < 10) h0]
      simp

theorem toDigits_eq_digits (n : Nat) (h : 0 < n) :
    Nat.toDigits 10 n = ((Nat.digits 10 n).map Nat.digitChar).reverse :=
  toDigitsCore_eq_digits (n + 1) n h (by omega)

theorem digitChar_inj_lt :
    ∀ a < 10, ∀ b < 10, Nat.digitChar a = Nat.digitChar b → a = b := by decide

theorem map_digitChar_inj :
    ∀ (l1 l2 : List Nat), (∀ d ∈ l1, d < 10) → (∀ d ∈ l2, d < 10) →
      l1.map Nat.digitChar = l2.map Nat.digitChar → l1 = l2 := by
  intro l1
  induction l1 with
  | nil => intro l2 _ _ h; cases l2 <;> simp_all
  | cons a t ih =>
    intro l2 h1 h2 h
    cases l2 with
    | nil => simp_all
    | cons b t2 =>
      simp only [List.map_cons, List.cons.injEq] at h
      have ha : a = b := digitChar_inj_lt a (h1 a (by simp)) b (h2 b (by simp)) h.1
      have ht : t = t2 := ih t2 (fun d hd => h1 d (by simp [hd])) (fun d hd => h2 d (by simp [hd])) h.2
      rw [ha, ht]

theorem repr_injective : ∀ m n : Nat, Nat.repr m = Nat.repr n → m = n := by
  intro m n h
  have hlist : Nat.toDigits 10 m = Nat.toDigits 10 n := by
    have h2 := congrArg String.toList h
    simpa [Nat.repr, List.toList_asString] using h2
  rcases Nat.eq_zero_or_pos m with hm | hm
  · rcases Nat.eq_zero_or_pos n with hn | hn
    · omega
    · exfalso
      subst hm
      rw [toDigits_eq_digits n hn] at hlist
      have hmap : (Nat.digits 10 n).map Nat.digitChar = ['0'] := by
        have h3 := congrArg List.reverse hlist
        simpa using h3.symm
      have hdig : Nat.digits 10 n = [0] :=
        map_digitChar_inj _ [0] (fun d hd => Nat.digits_lt_base (by norm_num) hd)
          (by simp) (by simpa using hmap)
      have hn0 : n = 0 := by
        have h4 := Nat.ofDigits_digits 10 n
        rw [hdig] at h4
        simpa [Nat.ofDigits] using h4.symm
      omega
  · rcases Nat.eq_zero_or_pos n with hn | hn
    · exfalso
      subst hn
      rw [toDigits_eq_digits m hm] at hlist
      have hmap : (Nat.digits 10 m).map Nat.digitChar = ['0'] := by
        have h3 := congrArg List.reverse hlist
        simpa using h3
      have hdig : Nat.digits 10 m = [0] :=
        map_digitChar_inj _ [0] (fun d hd => Nat.digits_lt_base (by norm_num) hd)
          (by simp) (by simpa using hmap)
      have hm0 : m = 0 := by
        have h4 := Nat.ofDigits_digits 10 m
        rw [hdig] at h4
        simpa [Nat.ofDigits] using h4.symm
      omega
    · rw [toDigits_eq_digits m hm, toDigits_eq_digits n hn] at hlist
      have hmap := List.reverse_injective hlist
      have hdig : Nat.digits 10 m = Nat.digits 10 n :=
        map_digitChar_inj _ _ (fun d hd => Nat.digits_lt_base (by norm_num) hd)
          (fun d hd => Nat.digits_lt_base (by norm_num) hd) hmap
      exact Nat.digits_inj_iff.mp hdig

/-! ### Basic facts about the `toggleTodo` traversal -/

theorem toggleItems_map_id (p : String) (l : List Todo) :
    (toggleItems p l).map Todo.id = l.map Todo.id := by
  induction l with
  | nil => rfl
  | cons t ts ih =>
    simp only [toggleItems]
    by_cases h : t.id = p
    · simp [h]
    · simp [h, ih]

theorem toggleItems_length (p : String) (l : List Todo) :
    (toggleItems p l).length = l.length := by
  have h := congrArg List.length (toggleItems_map_id p l)
  simpa using h

theorem toggleItems_noop (p : String) (l : List Todo)
    (h : ∀ x ∈ l, x.id ≠ p) : toggleItems p l = l := by
  induction l with
  | nil => rfl
  | cons t ts ih =>
    simp only [toggleItems]
    rw [if_neg (h t (by simp)), ih (fun x hx => h x (by simp [hx]))]

theorem toggleItems_invol (p : String) (l : List Todo) :
    toggleItems p (toggleItems p l) = l := by
  induction l with
  | nil => rfl
  | cons t ts ih =>
    obtain ⟨i, ti, d, c⟩ := t
    by_cases h : i = p
    · simp [toggleItems, h, Bool.not_not]
    · simp [toggleItems, h, ih]

theorem map_toggle_noop (p : String) (l : List Todo)
    (h : ∀ x ∈ l, x.id ≠ p) :
    l.map (fun t => if t.id = p then { t with done := !t.done } else t) = l := by
  induction l with
  | nil => rfl
  | cons t ts ih =>
    simp only [List.map_cons]
    rw [if_neg (h t (by simp)), ih (fun x hx => h x (by simp [hx]))]

theorem toggleItems_eq_map_of_nodup (p : String) (l : List Todo)
    (hnodup : (l.map Todo.id).Nodup) :
    toggleItems p l = l.map (fun t => if t.id = p then { t with done := !t.done } else t) := by
  induction l with
  | nil => rfl
  | cons t ts ih =>
    simp only [List.map_cons, List.nodup_cons] at hnodup
    simp only [toggleItems, List.map_cons]
    by_cases h : t.id = p
    · have hts : ∀ x ∈ ts, x.id ≠ p := by
        intro x hx hxp
        have hmem : t.id ∈ List.map Todo.id ts := by
          rw [h, ← hxp]
          exact List.mem_map_of_mem Todo.id hx
        exact hnodup.1 hmem
      rw [if_pos h, if_pos h, map_toggle_noop p ts hts]
    · rw [if_neg h, if_neg h, ih hnodup.2]

theorem toggleItems_frame (p : String) (l : List Todo) :
    ∀ x ∈ toggleItems p l,
      ∃ y ∈ l, y.id = x.id ∧ y.title = x.title ∧ y.createdAt = x.createdAt := by
  induction l with
  | nil => intro x hx; simp [toggleItems] at hx
  | cons t ts ih =>
    intro x hx
    simp only [toggleItems] at hx
    by_cases h : t.id = p
    · rw [if_pos h] at hx
      rcases List.mem_cons.mp hx with h1 | h1
      · exact ⟨t, by simp, by simp [h1]⟩
      · exact ⟨x, by simp [h1], rfl, rfl, rfl⟩
    · rw [if_neg h] at hx
      rcases List.mem_cons.mp hx with h1 | h1
      · exact ⟨t, by simp, by simp [h1]⟩
      · rcases ih x h1 with ⟨y, hy, hys⟩
        exact ⟨y, by simp [hy], hys⟩

theorem toggleItems_getD_ne (p : String) (l : List Todo) :
    ∀ (i : Nat), (l.getD i defaultTodo).id ≠ p →
      (toggleItems p l).getD i defaultTodo = l.getD i defaultTodo := by
  induction l with
  | nil => intro i _; rfl
  | cons t ts ih =>
    intro i hi
    cases i with
    | zero =>
      simp only [List.getD_cons_zero] at hi
      simp [toggleItems, if_neg hi]
    | succ j =>
      simp only [List.getD_cons_succ] at hi
      by_cases h : t.id = p
      · simp only [toggleItems, if_pos h, List.getD_cons_succ]
      · simp only [toggleItems, if_neg h, List.getD_cons_succ]
        exact ih j hi

theorem toggleItems_prepend (p : String) (pre l : List Todo)
    (h : ∀ y ∈ pre, y.id ≠ p) :
    toggleItems p (pre ++ l) = pre ++ toggleItems p l := by
  induction pre with
  | nil => rfl
  | cons t ts ih =>
    rw [List.cons_append]
    simp only [toggleItems]
    rw [if_neg (h t (by simp)), ih (fun y hy => h y (by simp [hy])), List.cons_append]

/-- Firing a timeout never touches the todos slice. -/
theorem fireTimer_todos (t : Nat) (s : SysState) :
    (fireTimer t s).app.todos = s.app.todos := by
  unfold fireTimer
  split <;> rfl

/-- No dispatched action ever turns `showBanner` back on. -/
theorem dispatch_showBanner_false (now : Nat) (a : Action) (s : AppState)
    (h : s.ui.showBanner = false) : (dispatch now a s).ui.showBanner = false := by
  cases a <;> first
    | rfl
    | exact h

/-- A blank submission returns before dispatching anything. -/
theorem addNewTodo_blank (now : Nat) (title : String) (sys : SysState)
    (h : trimString title = "") : addNewTodo now title sys = sys := by
  unfold addNewTodo
  rw [if_pos h]

/-- A non-blank submission appends exactly the freshly built task. -/
theorem addNewTodo_items (now : Nat) (title : String) (sys : SysState)
    (h : ¬ trimString title = "") :
    (addNewTodo now title sys).app.todos.items =
      sys.app.todos.items ++
        [{ id := Nat.repr now, title := trimString title, done := false, createdAt := now }] := by
  unfold addNewTodo
  rw [if_neg h]
  rfl

/-! ### Claims -/

/-- C1: for every string that is empty or consists only of whitespace
(so its trimmed form is empty), the add-task operation is a complete
no-op: no task is created, and the whole system state — task collection,
UI flags and pending timers — is unchanged; no error is surfaced (the
handler simply returns). -/
theorem addTask_blank_noop (now : Nat) (title : String) (sys : SysState)
    (h : ∀ c ∈ title.data, c.isWhitespace) : addNewTodo now title sys = sys := by
  have htrim : trimString title = "" := by
    unfold trimString
    rw [List.dropWhile_eq_nil_iff.mpr h]
    rfl
  unfold addNewTodo
  rw [if_pos htrim]

/-- Witness for C1 at the whitespace-only input `"  "`. -/
theorem addTask_blank_noop_witness :
    (∀ c ∈ "  ".data, c.isWhitespace) ∧ addNewTodo 7 "  " initialSys = initialSys :=
  ⟨by decide, addTask_blank_noop 7 "  " initialSys (by decide)⟩

/-- C3: for every title that is non-empty after trimming, the add-task
operation appends exactly one task to the end of the collection (so the
count grows by one and every existing task keeps its position), and the
new task has `done = false`, the freshly generated id
`Date.now().toString()` and the current timestamp. -/
theorem addTask_appends (now : Nat) (title : String) (sys : SysState)
    (h : trimString title ≠ "") :
    (addNewTodo now title sys).app.todos.items =
      sys.app.todos.items ++
        [{ id := Nat.repr now, title := trimString title, done := false, createdAt := now }] ∧
    (addNewTodo now title sys).app.todos.items.length = sys.app.todos.items.length + 1 := by
  constructor
  · unfold addNewTodo
    rw [if_neg h]
    rfl
  · unfold addNewTodo
    rw [if_neg h]
    simp [dispatch, addTodo, showAddBanner]

/-- Witness for C3 at the title `" x "` dispatched at time 3. -/
theorem addTask_appends_witness :
    trimString " x " ≠ "" ∧
    (addNewTodo 3 " x " initialSys).app.todos.items =
      initialSys.app.todos.items ++
        [{ id := Nat.repr 3, title := trimString " x ", done := false, createdAt := 3 }] :=
  ⟨by decide, (addTask_appends 3 " x " initialSys (by decide)).1⟩

/-- C6: `removeTodo id` removes the task(s) with matching id — no task
with that id remains — while the surviving tasks form a sublist of the
original collection (relative order preserved); and when no task has the
given id the collection (indeed the whole slice state) is unchanged: a
no-op, not a failure. -/
theorem removeTask_correct (p : String) (s : TodosState) :
    (∀ x ∈ (removeTodo p s).items, x.id ≠ p) ∧
    (∀ x ∈ s.items, x.id ≠ p → x ∈ (removeTodo p s).items) ∧
    (removeTodo p s).items.Sublist s.items ∧
    ((∀ x ∈ s.items, x.id ≠ p) → removeTodo p s = s) := by
  refine ⟨?_, ?_, ?_, ?_⟩
  · intro x hx
    simp only [removeTodo, List.mem_filter] at hx
    simpa using hx.2
  · intro x hx hxp
    simp only [removeTodo, List.mem_filter]
    exact ⟨hx, by simpa using hxp⟩
  · show (s.items.filter _).Sublist s.items
    exact List.filter_sublist s.items
  · intro h
    show { s with items := s.items.filter _ } = s
    rw [List.filter_eq_self.mpr (fun x hx => by simpa using h x hx)]

/-- Witness for C6: removing the absent id `"9"` from a one-task state. -/
theorem removeTask_correct_witness :
    removeTodo "9" { items := [{ id := "1", title := "t", done := false, createdAt := 1 }] } =
      { items := [{ id := "1", title := "t", done := false, createdAt := 1 }] } :=
  (removeTask_correct "9"
      { items := [{ id := "1", title := "t", done := false, createdAt := 1 }] }).2.2.2
    (by decide)

/-- C8: a successful add shows the added-banner immediately and schedules
a hide 2000 time units after the moment of scheduling; firing any
scheduled hide — in particular the one whose delay elapses with no
further adds, and in particular a stale one scheduled before a more
recent add — always leaves the banner hidden (the last timer to fire
wins) and consumes that timer. -/
theorem addedBanner_lifecycle (now : Nat) (title : String) (sys : SysState)
    (h : trimString title ≠ "") :
    (addNewTodo now title sys).app.ui.showAddBanner = true ∧
    (addNewTodo now title sys).pending = sys.pending ++ [now + 2000] ∧
    (∀ (t : Nat) (s : SysState), t ∈ s.pending →
      (fireTimer t s).app.ui.showAddBanner = false ∧
      (fireTimer t s).pending = s.pending.erase t) := by
  refine ⟨?_, ?_, ?_⟩
  · unfold addNewTodo
    rw [if_neg h]
    rfl
  · unfold addNewTodo
    rw [if_neg h]
  · intro t s ht
    unfold fireTimer
    rw [if_pos ht]
    exact ⟨rfl, rfl⟩

/-- Witness for C8: add `"X"` at time 10, then fire the timer scheduled
for time 2010. -/
theorem addedBanner_lifecycle_witness :
    (addNewTodo 10 "X" initialSys).app.ui.showAddBanner = true ∧
    (fireTimer 2010 (addNewTodo 10 "X" initialSys)).app.ui.showAddBanner = false :=
  ⟨(addedBanner_lifecycle 10 "X" initialSys (by decide)).1,
    ((addedBanner_lifecycle 10 "X" initialSys (by decide)).2.2 2010
        (addNewTodo 10 "X" initialSys) (by decide)).1⟩

/-- C9: the two slices are independent under dispatch: every todos-slice
action leaves the UI slice untouched, and every UI-slice action leaves
the todos slice untouched. -/
theorem slices_independent (now : Nat) (p : String) (s : AppState) :
    (dispatch now (Action.addTodo p) s).ui = s.ui ∧
    (dispatch now (Action.toggleTodo p) s).ui = s.ui ∧
    (dispatch now (Action.removeTodo p) s).ui = s.ui ∧
    (dispatch now Action.clearTodos s).ui = s.ui ∧
    (dispatch now Action.toggleDarkMode s).todos = s.todos ∧
    (dispatch now Action.dismissBanner s).todos = s.todos ∧
    (dispatch now Action.showAddBanner s).todos = s.todos ∧
    (dispatch now Action.hideAddBanner s).todos = s.todos :=
  ⟨rfl, rfl, rfl, rfl, rfl, rfl, rfl, rfl⟩

/-- C7: `showBanner` starts out true, `dismissBanner` sets it to false,
and once false no dispatched action — and more generally no system event,
including a full add-task round and timer firings — ever makes it true
again. -/
theorem infoBanner_stays_dismissed :
    initialState.ui.showBanner = true ∧
    (∀ (now : Nat) (s : AppState), (dispatch now Action.dismissBanner s).ui.showBanner = false) ∧
    (∀ (now : Nat) (a : Action) (s : AppState),
      s.ui.showBanner = false → (dispatch now a s).ui.showBanner = false) ∧
    (∀ (now : Nat) (e : SysEvent) (sys : SysState),
      sys.app.ui.showBanner = false → (sysStep now e sys).app.ui.showBanner = false) := by
  refine ⟨rfl, fun now s => rfl, fun now a s h => dispatch_showBanner_false now a s h, ?_⟩
  intro now e sys h
  cases e with
  | input title =>
    show (addNewTodo now title sys).app.ui.showBanner = false
    unfold addNewTodo
    split
    · exact h
    · exact dispatch_showBanner_false now Action.showAddBanner _
        (dispatch_showBanner_false now (Action.addTodo (trimString title)) sys.app h)
  | toggle i => exact dispatch_showBanner_false now (Action.toggleTodo i) sys.app h
  | remove i => exact dispatch_showBanner_false now (Action.removeTodo i) sys.app h
  | clear => exact dispatch_showBanner_false now Action.clearTodos sys.app h
  | toggleDark => exact dispatch_showBanner_false now Action.toggleDarkMode sys.app h
  | dismiss => exact dispatch_showBanner_false now Action.dismissBanner sys.app h
  | fire t =>
    show (fireTimer t sys).app.ui.showBanner = false
    unfold fireTimer
    split
    · exact dispatch_showBanner_false t Action.hideAddBanner sys.app h
    · exact h

/-- Witness for C7: a dark-mode toggle does not revive a dismissed banner. -/
theorem infoBanner_stays_dismissed_witness :
    (dispatch 3 Action.toggleDarkMode (dispatch 2 Action.dismissBanner sampleApp)).ui.showBanner
      = false :=
  infoBanner_stays_dismissed.2.2.1 3 Action.toggleDarkMode
    (dispatch 2 Action.dismissBanner sampleApp) (by decide)

/-- C5: no operation mutates any field of an existing task other than
`done`: every task present after any dispatched action is either a task
that was present before with the same `id`, `title` and `createdAt`
(only `done` may differ), or the single task freshly created by an
`addTodo`; and `toggleTodo` leaves every position whose task id does not
match the payload completely unchanged. -/
theorem no_field_mutation (now : Nat) (a : Action) (s : AppState) :
    (∀ x ∈ (dispatch now a s).todos.items,
      (∃ y ∈ s.todos.items, y.id = x.id ∧ y.title = x.title ∧ y.createdAt = x.createdAt) ∨
      ∃ p, a = Action.addTodo p ∧
        x = { id := Nat.repr now, title := p, done := false, createdAt := now }) ∧
    (∀ (p : String) (i : Nat), (s.todos.items.getD i defaultTodo).id ≠ p →
      (dispatch now (Action.toggleTodo p) s).todos.items.getD i defaultTodo
        = s.todos.items.getD i defaultTodo) := by
  constructor
  · intro x hx
    cases a with
    | addTodo p =>
      simp only [dispatch, addTodo] at hx
      rcases List.mem_append.mp hx with h1 | h1
      · exact Or.inl ⟨x, h1, rfl, rfl, rfl⟩
      · refine Or.inr ⟨p, rfl, ?_⟩
        simpa using h1
    | toggleTodo p =>
      rcases toggleItems_frame p s.todos.items x hx with ⟨y, hy, hys⟩
      exact Or.inl ⟨y, hy, hys⟩
    | removeTodo p =>
      simp only [dispatch, removeTodo] at hx
      exact Or.inl ⟨x, List.mem_of_mem_filter hx, rfl, rfl, rfl⟩
    | clearTodos => simp [dispatch, clearTodos] at hx
    | toggleDarkMode => exact Or.inl ⟨x, hx, rfl, rfl, rfl⟩
    | dismissBanner => exact Or.inl ⟨x, hx, rfl, rfl, rfl⟩
    | showAddBanner => exact Or.inl ⟨x, hx, rfl, rfl, rfl⟩
    | hideAddBanner => exact Or.inl ⟨x, hx, rfl, rfl, rfl⟩
  · intro p i hi
    exact toggleItems_getD_ne p s.todos.items i hi

/-- Witness for C5: toggling an absent id leaves position 0 untouched. -/
theorem no_field_mutation_witness :
    (dispatch 9 (Action.toggleTodo "z") sampleApp).todos.items.getD 0 defaultTodo
      = sampleApp.todos.items.getD 0 defaultTodo :=
  (no_field_mutation 9 (Action.toggleTodo "z") sampleApp).2 "z" 0 (by decide)

/-- C4 fails as stated: in the reachable collection `dupTodos` (two adds
during the same millisecond), both tasks carry id "5"; toggling the id
of the second task flips the first one instead, so the second task's
`done` flag is not flipped. -/
theorem toggle_flip_counterexample :
    ¬ (∀ (s : TodosState), ∀ x ∈ s.items,
        { x with done := !x.done } ∈ (toggleTodo x.id s).items) := by
  intro hcl
  have h2 := hcl dupTodos { id := "5", title := "b", done := false, createdAt := 5 } (by decide)
  revert h2
  decide

/-- C4 (amended): provided the ids in the collection are pairwise
distinct — the invariant the spec intends — toggling the id of a present
task flips exactly that task's `done` flag while every other task is
kept as is (the collection is mapped by a function that only touches the
matching id); toggling the same id twice restores the original state
(involution); and toggling an id no task has is a no-op. -/
theorem toggleTask_correct (s : TodosState) (x : Todo) (hx : x ∈ s.items)
    (hnodup : (s.items.map Todo.id).Nodup) :
    { x with done := !x.done } ∈ (toggleTodo x.id s).items ∧
    (toggleTodo x.id s).items =
      s.items.map (fun t => if t.id = x.id then { t with done := !t.done } else t) ∧
    (∀ p, toggleTodo p (toggleTodo p s) = s) ∧
    (∀ p, (∀ y ∈ s.items, y.id ≠ p) → toggleTodo p s = s) := by
  refine ⟨?_, ?_, ?_, ?_⟩
  · show _ ∈ toggleItems x.id s.items
    rw [toggleItems_eq_map_of_nodup x.id s.items hnodup]
    refine List.mem_map.mpr ⟨x, hx, ?_⟩
    rw [if_pos rfl]
  · show toggleItems x.id s.items = _
    exact toggleItems_eq_map_of_nodup x.id s.items hnodup
  · intro p
    show ({ items := toggleItems p (toggleItems p s.items) } : TodosState) = s
    rw [toggleItems_invol]
  · intro p hp
    show ({ items := toggleItems p s.items } : TodosState) = s
    rw [toggleItems_noop p s.items hp]

/-- Witness for C4 (amended) on a one-task collection. -/
theorem toggleTask_correct_witness :
    ({ id := "1", title := "t", done := true, createdAt := 1 } : Todo) ∈
      (toggleTodo "1" sampleApp.todos).items :=
  (toggleTask_correct sampleApp.todos
      { id := "1", title := "t", done := false, createdAt := 1 } (by decide) (by decide)).1

/-- C10: in a collection where a later task `y` duplicates the id of an
earlier task `x` (with `x` the first match), `removeTodo` removes every
matching task — none remains, in particular the duplicate `y` — while
every non-matching task survives; and `toggleTodo` flips only the first
matching task `x`, leaving the duplicate `y` (and everyone else) as is. -/
theorem duplicate_id_semantics (pre mid post : List Todo) (x y : Todo)
    (hpre : ∀ z ∈ pre, z.id ≠ x.id) (hxy : y.id = x.id) :
    (∀ z ∈ (removeTodo x.id { items := pre ++ x :: (mid ++ y :: post) }).items, z.id ≠ x.id) ∧
    y ∉ (removeTodo x.id { items := pre ++ x :: (mid ++ y :: post) }).items ∧
    (∀ z ∈ pre ++ x :: (mid ++ y :: post), z.id ≠ x.id →
      z ∈ (removeTodo x.id { items := pre ++ x :: (mid ++ y :: post) }).items) ∧
    (toggleTodo x.id { items := pre ++ x :: (mid ++ y :: post) }).items
      = pre ++ { x with done := !x.done } :: (mid ++ y :: post) := by
  refine ⟨?_, ?_, ?_, ?_⟩
  · intro z hz
    simp only [removeTodo, List.mem_filter] at hz
    simpa using hz.2
  · intro hy
    simp only [removeTodo, List.mem_filter] at hy
    have h2 : y.id ≠ x.id := by simpa using hy.2
    exact h2 hxy
  · intro z hz hzid
    simp only [removeTodo, List.mem_filter]
    exact ⟨hz, by simpa using hzid⟩
  · have h3 : toggleItems x.id (pre ++ x :: (mid ++ y :: post))
        = pre ++ { x with done := !x.done } :: (mid ++ y :: post) := by
      rw [toggleItems_prepend x.id pre (x :: (mid ++ y :: post)) hpre]
      simp [toggleItems]
    exact h3

/-- Along any trace whose add events happen at pairwise distinct clock
values — and whose pending id strings are fresh for the start state —
the ids in the collection stay pairwise distinct. -/
theorem sysRun_ids_nodup_aux :
    ∀ (tr : List (Nat × SysEvent)) (sys : SysState),
      (addTimes tr).Nodup →
      (∀ t ∈ addTimes tr, Nat.repr t ∉ sys.app.todos.items.map Todo.id) →
      (sys.app.todos.items.map Todo.id).Nodup →
      ((sysRun tr sys).app.todos.items.map Todo.id).Nodup := by
  intro tr
  induction tr with
  | nil => intro sys _ _ h; exact h
  | cons ev rest ih =>
    obtain ⟨now, e⟩ := ev
    intro sys hnd hfresh hids
    cases e with
    | input title =>
      have hnd0 : (now :: addTimes rest).Nodup := hnd
      rw [List.nodup_cons] at hnd0
      by_cases htrim : trimString title = ""
      · show ((sysRun rest (addNewTodo now title sys)).app.todos.items.map Todo.id).Nodup
        rw [addNewTodo_blank now title sys htrim]
        exact ih sys hnd0.2 (fun t ht => hfresh t (List.mem_cons_of_mem now ht)) hids
      · show ((sysRun rest (addNewTodo now title sys)).app.todos.items.map Todo.id).Nodup
        have hitems := addNewTodo_items now title sys htrim
        have hnew : Nat.repr now ∉ sys.app.todos.items.map Todo.id :=
          hfresh now (List.mem_cons_self now (addTimes rest))
        refine ih (addNewTodo now title sys) hnd0.2 ?_ ?_
        · intro t ht hmem
          rw [hitems, List.map_append] at hmem
          rcases List.mem_append.mp hmem with h1 | h1
          · exact hfresh t (List.mem_cons_of_mem now ht) h1
          · have heq : Nat.repr t = Nat.repr now := by simpa using h1
            have ht2 : t = now := repr_injective t now heq
            subst ht2
            exact hnd0.1 ht
        · rw [hitems, List.map_append]
          refine List.Nodup.append hids (List.nodup_singleton _) ?_
          intro a ha ha2
          have ha3 : a = Nat.repr now := by simpa using ha2
          subst ha3
          exact hnew ha
    | toggle i =>
      have hsub : (((sysStep now (SysEvent.toggle i) sys).app.todos.items.map Todo.id).Sublist
          (sys.app.todos.items.map Todo.id)) := by
        show (((toggleItems i sys.app.todos.items).map Todo.id).Sublist _)
        rw [toggleItems_map_id]
      exact ih _ hnd (fun t ht hmem => hfresh t ht (hsub.subset hmem)) (hids.sublist hsub)
    | remove i =>
      have hsub : (((sysStep now (SysEvent.remove i) sys).app.todos.items.map Todo.id).Sublist
          (sys.app.todos.items.map Todo.id)) :=
        (List.filter_sublist sys.app.todos.items).map Todo.id
      exact ih _ hnd (fun t ht hmem => hfresh t ht (hsub.subset hmem)) (hids.sublist hsub)
    | clear =>
      have hsub : (((sysStep now SysEvent.clear sys).app.todos.items.map Todo.id).Sublist
          (sys.app.todos.items.map Todo.id)) := List.nil_sublist _
      exact ih _ hnd (fun t ht hmem => hfresh t ht (hsub.subset hmem)) (hids.sublist hsub)
    | toggleDark =>
      exact ih _ hnd (fun t ht hmem => hfresh t ht hmem) hids
    | dismiss =>
      exact ih _ hnd (fun t ht hmem => hfresh t ht hmem) hids
    | fire t0 =>
      have hsub : (((sysStep now (SysEvent.fire t0) sys).app.todos.items.map Todo.id).Sublist
          (sys.app.todos.items.map Todo.id)) := by
        show (((fireTimer t0 sys).app.todos.items.map Todo.id).Sublist _)
        rw [fireTimer_todos]
      exact ih _ hnd (fun t ht hmem => hfresh t ht (hsub.subset hmem)) (hids.sublist hsub)

/-- C2 fails as stated: adding "a" and "b" during the same millisecond
(`Date.now() = 5` both times) reaches a state whose two tasks share the
id "5". -/
theorem ids_nodup_counterexample :
    ¬ ((sysRun [(5, SysEvent.input "a"), (5, SysEvent.input "b")]
        initialSys).app.todos.items.map Todo.id).Nodup := by
  decide

/-- C2 (amended): in every state reachable from the initial state by a
sequence of add/toggle/remove/clear (and UI/timer) operations in which
no two add operations are dispatched at the same clock value, the ids of
the tasks in the collection are pairwise distinct. -/
theorem ids_nodup_of_distinct_add_times (tr : List (Nat × SysEvent))
    (h : (addTimes tr).Nodup) :
    ((sysRun tr initialSys).app.todos.items.map Todo.id).Nodup :=
  sysRun_ids_nodup_aux tr initialSys h
    (fun t ht => by simp [initialSys, initialState])
    (by simp [initialSys, initialState])

/-- Witness for C2 (amended): two adds at distinct times 1 and 2. -/
theorem ids_nodup_witness :
    (addTimes [(1, SysEvent.input "a"), (2, SysEvent.input "b")]).Nodup ∧
    ((sysRun [(1, SysEvent.input "a"), (2, SysEvent.input "b")]
        initialSys).app.todos.items.map Todo.id).Nodup :=
  ⟨by decide, ids_nodup_of_distinct_add_times _ (by decide)⟩

/-- Witness for C10 on the two-task duplicate-id collection. -/
theorem duplicate_id_semantics_witness :
    (toggleTodo "5"
        { items := [{ id := "5", title := "a", done := false, createdAt := 5 },
                    { id := "5", title := "b", done := false, createdAt := 5 }] }).items
      = [{ id := "5", title := "a", done := true, createdAt := 5 },
         { id := "5", title := "b", done := false, createdAt := 5 }] :=
  (duplicate_id_semantics [] [] []
      { id := "5", title := "a", done := false, createdAt := 5 }
      { id := "5", title := "b", done := false, createdAt := 5 }
      (by decide) (by decide)).2.2.2

end StateWithRedux
